import Mathlib

/-!
Shallow embedding of the expiring key-value store engine in
`src/kv_store.rs` (struct `KvStore` and its methods), together with
proofs checking the specification's claims against it.

Modelling conventions:
* The Rust `HashMap<String, Value>` is modelled as an association list
  `List (String × Value)`; `insert` replaces any existing binding and
  `remove` drops it, so stores built by the operations have unique keys.
  A well-formedness predicate (`StoreMap.wf`, unique keys) captures the
  states reachable through `HashMap`.
* Every operation that reads the clock (`SystemTime::now`) receives the
  current Unix time in seconds as an explicit `now : Nat` argument; a
  single call is treated as executing at one instant.
* Rust `u64` arithmetic is modelled on `Nat` with explicit reduction
  `% 2 ^ 64` where overflow matters: the plain `+` in `set_with_ttl`
  wraps on overflow (release-mode Rust semantics), and
  `u64::saturating_sub` is `Nat` subtraction, which is already
  truncated at zero.
* File input and JSON parsing in `KvStore::new` are modelled by passing
  the outcome of each I/O step as an argument: whether the snapshot
  file exists, the result of reading it, and an abstract parse
  function (`serde_json::from_str`) returning `none` on parse failure.
-/

namespace KvSpec

/-- Embeds `struct Value` of src/kv_store.rs: the stored payload and the
optional absolute expiry timestamp (seconds since the Unix epoch). -/
structure Value where
  data : String
  expires_at : Option Nat
  deriving DecidableEq

/-- The in-memory map `HashMap<String, Value>`, as an association list. -/
abbrev StoreMap := List (String × Value)

/-- Modulus of Rust `u64` arithmetic. -/
def U64_MOD : Nat := 2 ^ 64

/-- `HashMap::get`: the value bound to `k`, if any (first binding). -/
def StoreMap.findVal : StoreMap → String → Option Value
  | [], _ => none
  | p :: rest, k => if p.1 = k then some p.2 else StoreMap.findVal rest k

/-- `HashMap::remove` (as it acts on the map): drop every binding of `k`.
On a unique-key store this removes the one binding, as in Rust. -/
def StoreMap.removeVal : StoreMap → String → StoreMap
  | [], _ => []
  | p :: rest, k =>
      if p.1 = k then StoreMap.removeVal rest k
      else p :: StoreMap.removeVal rest k

/-- `HashMap::insert`: bind `k` to `v`, replacing any prior binding. -/
def StoreMap.insertVal (s : StoreMap) (k : String) (v : Value) : StoreMap :=
  (k, v) :: StoreMap.removeVal s k

/-- Well-formedness of a store state: keys are unique, as in `HashMap`. -/
def StoreMap.wf (s : StoreMap) : Prop := (s.map Prod.fst).Nodup

instance (s : StoreMap) : Decidable (StoreMap.wf s) := by
  unfold StoreMap.wf; infer_instance

/-- Embeds `KvStore::is_expired` (src/kv_store.rs lines 95-105): an entry
is expired iff `expires_at` is present and `expires_at <= now`. -/
def KvStore.is_expired (now : Nat) (value : Value) : Bool :=
  match value.expires_at with
  | some expires_at => decide (expires_at ≤ now)
  | none => false

/-- Embeds `KvStore::get` (lines 42-50): the payload if an entry exists
for `key` and is not expired; `none` otherwise. -/
def KvStore.get (s : StoreMap) (now : Nat) (key : String) : Option String :=
  (StoreMap.findVal s key).bind fun value =>
    if KvStore.is_expired now value then none else some value.data

/-- Embeds `KvStore::set_with_ttl` (lines 56-71): the map after inserting
`key` with the computed `expires_at`. The Rust code computes
`now + ttl` with plain `u64` addition, which wraps modulo `2 ^ 64` on
overflow (it is not a saturating addition). -/
def KvStore.set_with_ttl (s : StoreMap) (now : Nat) (key value : String)
    (ttl_seconds : Option Nat) : StoreMap :=
  let expires_at := ttl_seconds.map fun ttl => (now + ttl) % U64_MOD
  StoreMap.insertVal s key { data := value, expires_at := expires_at }

/-- Embeds `KvStore::set` (lines 52-54): `set_with_ttl` with no TTL. -/
def KvStore.set (s : StoreMap) (now : Nat) (key value : String) : StoreMap :=
  KvStore.set_with_ttl s now key value none

/-- Embeds `KvStore::delete` (lines 73-77): returns the updated map and
`self.store.remove(key).map(|v| v.data)` — the removed entry's payload
whenever a binding was physically present, with no expiry check. -/
def KvStore.delete (s : StoreMap) (key : String) : StoreMap × Option String :=
  (StoreMap.removeVal s key, (StoreMap.findVal s key).map Value.data)

/-- Embeds `KvStore::list` (lines 87-93): all non-expired `(key, data)`
pairs, in map iteration order. -/
def KvStore.list (s : StoreMap) (now : Nat) : List (String × String) :=
  (s.filter fun p => !KvStore.is_expired now p.2).map fun p => (p.1, p.2.data)

/-- Embeds `KvStore::get_ttl` (lines 124-138): remaining seconds
`expires_at.saturating_sub(now)` for a present, non-expired entry that
has a TTL; `none` otherwise. `Nat` subtraction is saturating. -/
def KvStore.get_ttl (s : StoreMap) (now : Nat) (key : String) : Option Nat :=
  (StoreMap.findVal s key).bind fun value =>
    if KvStore.is_expired now value then none
    else value.expires_at.map fun expires_at => expires_at - now

/-- Embeds `KvStore::cleanup_expired` (lines 107-121) as it acts on the
map: remove every expired entry. -/
def KvStore.cleanup_expired (s : StoreMap) (now : Nat) : StoreMap :=
  s.filter fun p => !KvStore.is_expired now p.2

/-- Embeds `KvStore::new` (lines 22-40) with the I/O outcomes passed in:
whether the snapshot file exists, the result of reading it, and the
parse function (`serde_json::from_str`, `none` on parse failure). A
parse failure is absorbed by `unwrap_or_else(|_| HashMap::new())`;
only a read error propagates. The loaded map is then cleaned up. -/
def KvStore.new (snapshot_exists : Bool) (read_result : Except Unit String)
    (parse : String → Option StoreMap) (now : Nat) : Except Unit StoreMap :=
  if snapshot_exists then
    match read_result with
    | Except.error e => Except.error e
    | Except.ok contents =>
        Except.ok (KvStore.cleanup_expired ((parse contents).getD []) now)
  else
    Except.ok (KvStore.cleanup_expired [] now)

/-- Embeds `KvStore::is_empty` (lines 148-150): emptiness of the raw map,
with no expiry filtering. -/
def KvStore.is_empty (s : StoreMap) : Bool := s.isEmpty

/-- Embeds `KvStore::len` (lines 152-154): size of the raw map, with no
expiry filtering. -/
def KvStore.len (s : StoreMap) : Nat := s.length

/-- Transcribes the spec's expiry rule, for comparison with the code's
`is_expired`: an entry is expired iff `expires_at` is present and
`expires_at <= current_unix_time_seconds`. -/
def specExpired (now : Nat) (v : Value) : Prop :=
  ∃ e, v.expires_at = some e ∧ e ≤ now

/-- Transcribes the spec's claimed saturating addition for
`expires_at = now + ttl_seconds` on `u64`. -/
def u64_saturating_add (a b : Nat) : Nat := min (a + b) (U64_MOD - 1)

/-! ### Helper lemmas about the association-list map -/

theorem is_expired_iff_specExpired (now : Nat) (v : Value) :
    KvStore.is_expired now v = true ↔ specExpired now v := by
  unfold KvStore.is_expired specExpired
  cases h : v.expires_at with
  | none => simp [h]
  | some e => simp [h]

theorem findVal_removeVal (s : StoreMap) (k : String) :
    StoreMap.findVal (StoreMap.removeVal s k) k = none := by
  induction s with
  | nil => rfl
  | cons p rest ih =>
      by_cases hp : p.1 = k
      · simpa [StoreMap.removeVal, hp] using ih
      · simpa [StoreMap.removeVal, StoreMap.findVal, hp] using ih

theorem findVal_insertVal_self (s : StoreMap) (k : String) (v : Value) :
    StoreMap.findVal (StoreMap.insertVal s k v) k = some v := by
  simp [StoreMap.insertVal, StoreMap.findVal]

theorem findVal_mem (s : StoreMap) (k : String) (v : Value)
    (h : StoreMap.findVal s k = some v) : (k, v) ∈ s := by
  induction s with
  | nil => simp [StoreMap.findVal] at h
  | cons p rest ih =>
      by_cases hp : p.1 = k
      · simp [StoreMap.findVal, hp] at h
        have hkv : (k, v) = p := by
          cases p with
          | mk pk pv =>
              simp at hp h
              exact Prod.ext hp.symm h.symm
        rw [hkv]
        exact List.mem_cons_self p rest
      · simp [StoreMap.findVal, hp] at h
        exact List.mem_cons_of_mem _ (ih h)

theorem findVal_eq_none_iff (s : StoreMap) (k : String) :
    StoreMap.findVal s k = none ↔ ∀ p ∈ s, p.1 ≠ k := by
  induction s with
  | nil => simp [StoreMap.findVal]
  | cons p rest ih =>
      by_cases hp : p.1 = k
      · simp [StoreMap.findVal, hp]
      · simp [StoreMap.findVal, hp, ih]

theorem wf_binding_unique (s : StoreMap) (k : String) (v w : Value)
    (hwf : StoreMap.wf s) (hv : (k, v) ∈ s) (hw : (k, w) ∈ s) : v = w := by
  induction s with
  | nil => simp at hv
  | cons p rest ih =>
      have hwfc := hwf
      unfold StoreMap.wf at hwfc
      rw [List.map_cons] at hwfc
      have hnd := List.nodup_cons.mp hwfc
      rcases List.mem_cons.mp hv with hv1 | hv1
      · rcases List.mem_cons.mp hw with hw1 | hw1
        · have hvw := hv1.trans hw1.symm
          exact congrArg Prod.snd hvw
        · exfalso
          have hk : p.1 = k := by rw [← hv1]
          exact hnd.1 (by rw [hk]; exact List.mem_map_of_mem Prod.fst hw1)
      · rcases List.mem_cons.mp hw with hw1 | hw1
        · exfalso
          have hk : p.1 = k := by rw [← hw1]
          exact hnd.1 (by rw [hk]; exact List.mem_map_of_mem Prod.fst hv1)
        · exact ih hnd.2 hv1 hw1

theorem set_with_ttl_findVal (s : StoreMap) (now ttl : Nat) (key value : String)
    (h : now + ttl < U64_MOD) :
    StoreMap.findVal (KvStore.set_with_ttl s now key value (some ttl)) key =
      some (Value.mk value (some (now + ttl))) := by
  unfold KvStore.set_with_ttl
  rw [findVal_insertVal_self]
  simp [Nat.mod_eq_of_lt h]

theorem wf_findVal_of_mem (s : StoreMap) (k : String) (v : Value)
    (hwf : StoreMap.wf s) (hmem : (k, v) ∈ s) : StoreMap.findVal s k = some v := by
  cases h : StoreMap.findVal s k with
  | none =>
      exact absurd rfl ((findVal_eq_none_iff s k).mp h (k, v) hmem)
  | some w =>
      have := wf_binding_unique s k w v hwf (findVal_mem s k w h) hmem
      rw [this]

/-! ### Claim theorems -/

/-- Claim C1, counterexample: at the concrete store binding "k" to
payload "v" with `expires_at = some 5`, at current time 10 the entry is
physically present and expired, yet `delete "k"` returns `some "v"`,
not nothing as the claim states. -/
theorem C1_counterexample :
    StoreMap.findVal [("k", Value.mk "v" (some 5))] "k" = some (Value.mk "v" (some 5)) ∧
    KvStore.is_expired 10 (Value.mk "v" (some 5)) = true ∧
    (KvStore.delete [("k", Value.mk "v" (some 5))] "k").2 = some "v" ∧
    (KvStore.delete [("k", Value.mk "v" (some 5))] "k").2 ≠ none := by
  refine ⟨rfl, rfl, rfl, ?_⟩
  intro h
  exact Option.noConfusion h

/-- Claim C1 amended: `delete key` always removes the entry (afterwards
both the physical lookup and `get` at any time return nothing), and it
returns nothing exactly when the key was physically absent — for a
physically present entry it returns the stored payload even when the
entry is expired. -/
theorem C1_delete_removes_entry (s : StoreMap) (now : Nat) (key : String) :
    StoreMap.findVal (KvStore.delete s key).1 key = none ∧
    KvStore.get (KvStore.delete s key).1 now key = none ∧
    ((KvStore.delete s key).2 = none ↔ StoreMap.findVal s key = none) := by
  refine ⟨findVal_removeVal s key, ?_, ?_⟩
  · unfold KvStore.get
    rw [show (KvStore.delete s key).1 = StoreMap.removeVal s key from rfl]
    rw [findVal_removeVal s key]
    rfl
  · unfold KvStore.delete
    simp

/-- Claim C2: `get key` returns a payload iff an entry is physically
present for `key` and is not expired under the spec's expiry rule
(`expires_at` present and `expires_at ≤ now`), returning that entry's
data; and it returns nothing iff any present entry is expired. -/
theorem C2_get_characterization (s : StoreMap) (now : Nat) (key : String) :
    (∀ payload, KvStore.get s now key = some payload ↔
      ∃ entry, StoreMap.findVal s key = some entry ∧
        ¬ specExpired now entry ∧ payload = entry.data) ∧
    (KvStore.get s now key = none ↔
      ∀ entry, StoreMap.findVal s key = some entry → specExpired now entry) := by
  unfold KvStore.get
  cases hf : StoreMap.findVal s key with
  | none => simp
  | some entry =>
      by_cases hx : KvStore.is_expired now entry = true
      · have hs := (is_expired_iff_specExpired now entry).mp hx
        simp [hx]
        exact hs
      · have hs : ¬ specExpired now entry := fun h =>
          hx ((is_expired_iff_specExpired now entry).mpr h)
        simp [hx]
        constructor
        · intro payload
          constructor
          · intro h; exact ⟨hs, h.symm⟩
          · intro h; exact h.2.symm
        · exact hs

/-- Claim C3, counterexample: at `now = 2^64 - 1` and `ttl_seconds = 1`
the code's plain `u64` addition wraps, storing `expires_at = some 0`,
whereas a saturating addition would give `2^64 - 1 ≠ 0`: the stored
value is not the saturating sum. -/
theorem C3_counterexample :
    StoreMap.findVal (KvStore.set_with_ttl [] (U64_MOD - 1) "k" "v" (some 1)) "k" =
      some (Value.mk "v" (some 0)) ∧
    u64_saturating_add (U64_MOD - 1) 1 = U64_MOD - 1 ∧
    (0 : Nat) ≠ U64_MOD - 1 := by
  refine ⟨?_, ?_, ?_⟩ <;> decide

/-- Claim C3 amended: `set_with_ttl` stores
`expires_at = (now + ttl_seconds) % 2^64` — plain wrapping `u64`
addition, not saturating — so whenever `now + ttl_seconds` fits in a
`u64` the stored expiry is exactly `now + ttl_seconds`. -/
theorem C3_set_ttl_exact (s : StoreMap) (now ttl : Nat) (key value : String)
    (h : now + ttl < U64_MOD) :
    StoreMap.findVal (KvStore.set_with_ttl s now key value (some ttl)) key =
      some (Value.mk value (some (now + ttl))) :=
  set_with_ttl_findVal s now ttl key value h

/-- Witness for C3_set_ttl_exact at `now = 0`, `ttl = 5`. -/
theorem C3_set_ttl_exact_witness :
    0 + 5 < U64_MOD ∧
    StoreMap.findVal (KvStore.set_with_ttl [] 0 "k" "v" (some 5)) "k" =
      some (Value.mk "v" (some (0 + 5))) :=
  ⟨by decide, C3_set_ttl_exact [] 0 5 "k" "v" (by decide)⟩

/-- Claim C4: in a well-formed store (unique keys, as `HashMap`
guarantees), an entry that is physically present for `key` but whose
`expires_at` is present and `≤ now` is logically absent: `get key`
returns nothing and no pair of `list` carries `key`. -/
theorem C4_expired_logically_absent (s : StoreMap) (now : Nat) (key : String)
    (entry : Value) (e : Nat) (hwf : StoreMap.wf s) (hmem : (key, entry) ∈ s)
    (he : entry.expires_at = some e) (hle : e ≤ now) :
    KvStore.get s now key = none ∧ ∀ q ∈ KvStore.list s now, q.1 ≠ key := by
  have hexp : KvStore.is_expired now entry = true := by
    unfold KvStore.is_expired
    rw [he]
    exact decide_eq_true hle
  have hfind : StoreMap.findVal s key = some entry :=
    wf_findVal_of_mem s key entry hwf hmem
  constructor
  · unfold KvStore.get
    rw [hfind]
    simp [hexp]
  · intro q hq hkey
    unfold KvStore.list at hq
    rcases List.mem_map.mp hq with ⟨p, hp, hpq⟩
    rcases List.mem_filter.mp hp with ⟨hps, hplive⟩
    have hp1 : p.1 = key := by rw [← hpq] at hkey; exact hkey
    have hpentry : p.2 = entry := by
      have : (key, p.2) ∈ s := by
        have hpp : p = (key, p.2) := Prod.ext hp1 rfl
        rw [← hpp]; exact hps
      exact wf_binding_unique s key p.2 entry hwf this hmem
    rw [hpentry, hexp] at hplive
    simp at hplive

/-- Witness for C4_expired_logically_absent: a store holding one entry
whose expiry timestamp 3 equals the current time 3. -/
theorem C4_expired_logically_absent_witness :
    StoreMap.wf [("k", Value.mk "v" (some 3))] ∧
    ("k", Value.mk "v" (some 3)) ∈ [("k", Value.mk "v" (some 3))] ∧
    (Value.mk "v" (some 3)).expires_at = some 3 ∧ 3 ≤ 3 ∧
    (KvStore.get [("k", Value.mk "v" (some 3))] 3 "k" = none ∧
      ∀ q ∈ KvStore.list [("k", Value.mk "v" (some 3))] 3, q.1 ≠ "k") :=
  ⟨by decide, by decide, rfl, by decide,
    C4_expired_logically_absent [("k", Value.mk "v" (some 3))] 3 "k"
      (Value.mk "v" (some 3)) 3 (by decide) (by decide) rfl (by decide)⟩

/-- Claim C5: `ttl key` returns `n` iff an entry for `key` is physically
present with `expires_at = some e`, `now < e` (not expired), and
`n = e - now` (so the result is the remaining seconds, never negative);
it returns nothing iff every present entry is expired or has no TTL. -/
theorem C5_ttl_characterization (s : StoreMap) (now : Nat) (key : String) :
    (∀ n, KvStore.get_ttl s now key = some n ↔
      ∃ entry e, StoreMap.findVal s key = some entry ∧
        entry.expires_at = some e ∧ now < e ∧ n = e - now) ∧
    (KvStore.get_ttl s now key = none ↔
      ∀ entry, StoreMap.findVal s key = some entry →
        specExpired now entry ∨ entry.expires_at = none) := by
  cases hf : StoreMap.findVal s key with
  | none =>
      have hnone : KvStore.get_ttl s now key = none := by
        unfold KvStore.get_ttl; rw [hf]; rfl
      refine ⟨fun n => ⟨fun h => ?_, fun h => ?_⟩,
        ⟨fun _ entry hfe => ?_, fun _ => hnone⟩⟩
      · rw [hnone] at h; exact Option.noConfusion h
      · rcases h with ⟨entry, e, hfe, _⟩
        exact Option.noConfusion hfe
      · exact Option.noConfusion hfe
  | some entry =>
      have hval : KvStore.get_ttl s now key =
          (if KvStore.is_expired now entry = true then none
            else entry.expires_at.map fun expires_at => expires_at - now) := by
        unfold KvStore.get_ttl
        rw [hf]
        rfl
      cases hx : entry.expires_at with
      | none =>
          have hnone : KvStore.get_ttl s now key = none := by
            rw [hval]
            have hlive : KvStore.is_expired now entry = false := by
              unfold KvStore.is_expired; rw [hx]
            rw [hlive]
            simp [hx]
          refine ⟨fun n => ⟨fun h => ?_, fun h => ?_⟩,
            ⟨fun _ entry' hfe => ?_, fun _ => hnone⟩⟩
          · rw [hnone] at h; exact Option.noConfusion h
          · rcases h with ⟨entry', e', hfe, he', _⟩
            rw [← Option.some.inj hfe] at he'
            rw [hx] at he'
            exact Option.noConfusion he'
          · rw [← Option.some.inj hfe]
            exact Or.inr hx
      | some e =>
          by_cases hle : e ≤ now
          · have hexp : KvStore.is_expired now entry = true := by
              unfold KvStore.is_expired; rw [hx]; exact decide_eq_true hle
            have hnone : KvStore.get_ttl s now key = none := by
              rw [hval, if_pos hexp]
            refine ⟨fun n => ⟨fun h => ?_, fun h => ?_⟩,
              ⟨fun _ entry' hfe => ?_, fun _ => hnone⟩⟩
            · rw [hnone] at h; exact Option.noConfusion h
            · rcases h with ⟨entry', e', hfe, he', hlt, _⟩
              rw [← Option.some.inj hfe] at he'
              rw [hx] at he'
              rw [← Option.some.inj he'] at hlt
              exact absurd hle (by omega)
            · rw [← Option.some.inj hfe]
              exact Or.inl ⟨e, hx, hle⟩
          · have hlt := Nat.lt_of_not_le hle
            have hlive : KvStore.is_expired now entry = false := by
              unfold KvStore.is_expired; rw [hx]; exact decide_eq_false hle
            have hsome : KvStore.get_ttl s now key = some (e - now) := by
              rw [hval, hlive]
              simp [hx]
            refine ⟨fun n => ⟨fun h => ?_, fun h => ?_⟩,
              ⟨fun h => ?_, fun h => ?_⟩⟩
            · rw [hsome] at h
              exact ⟨entry, e, rfl, hx, hlt, (Option.some.inj h).symm⟩
            · rcases h with ⟨entry', e', hfe, he', _, hn⟩
              rw [← Option.some.inj hfe] at he'
              rw [hx] at he'
              rw [hn, ← Option.some.inj he']
              exact hsome
            · rw [hsome] at h; exact Option.noConfusion h
            · exfalso
              rcases h entry rfl with hspec | hnone
              · rcases hspec with ⟨e', he', hle'⟩
                rw [hx] at he'
                rw [← Option.some.inj he'] at hle'
                exact hle hle'
              · rw [hnone] at hx; exact Option.noConfusion hx

/-- Claim C6: when the snapshot file exists and is read successfully but
its contents fail to parse, `KvStore::new` succeeds (no error is
propagated) and the resulting store is empty. -/
theorem C6_corrupt_snapshot_empty (contents : String)
    (parse : String → Option StoreMap) (now : Nat)
    (h : parse contents = none) :
    KvStore.new true (Except.ok contents) parse now = Except.ok [] := by
  unfold KvStore.new
  simp [h, KvStore.cleanup_expired]

/-- Witness for C6_corrupt_snapshot_empty with an always-failing parse
on the contents "corrupt". -/
theorem C6_corrupt_snapshot_empty_witness :
    (fun _ : String => (none : Option StoreMap)) "corrupt" = none ∧
    KvStore.new true (Except.ok "corrupt")
      (fun _ : String => (none : Option StoreMap)) 0 = Except.ok [] :=
  ⟨rfl, C6_corrupt_snapshot_empty "corrupt" (fun _ => none) 0 rfl⟩

/-- Claim C7: `set k "a"` with no TTL followed by `set k "b"` with
`ttl = 5` overwrites the entry unconditionally, TTL transition included:
afterwards `get k` returns "b" and `ttl k` returns 5 (not nothing),
provided `now + 5` does not overflow a `u64`. -/
theorem C7_overwrite_ttl_transition (s : StoreMap) (now : Nat) (k : String)
    (h : now + 5 < U64_MOD) :
    KvStore.get
      (KvStore.set_with_ttl (KvStore.set s now k "a") now k "b" (some 5))
      now k = some "b" ∧
    KvStore.get_ttl
      (KvStore.set_with_ttl (KvStore.set s now k "a") now k "b" (some 5))
      now k = some 5 := by
  have hfind := set_with_ttl_findVal (KvStore.set s now k "a") now 5 k "b" h
  have hlive : KvStore.is_expired now (Value.mk "b" (some (now + 5))) = false := by
    unfold KvStore.is_expired
    exact decide_eq_false (by omega)
  constructor
  · unfold KvStore.get
    rw [hfind]
    simp [hlive]
  · unfold KvStore.get_ttl
    rw [hfind]
    simp [hlive]

/-- Witness for C7_overwrite_ttl_transition at the empty store, time 0,
key "k". -/
theorem C7_overwrite_ttl_transition_witness :
    0 + 5 < U64_MOD ∧
    (KvStore.get
        (KvStore.set_with_ttl (KvStore.set [] 0 "k" "a") 0 "k" "b" (some 5))
        0 "k" = some "b" ∧
      KvStore.get_ttl
        (KvStore.set_with_ttl (KvStore.set [] 0 "k" "a") 0 "k" "b" (some 5))
        0 "k" = some 5) :=
  ⟨by decide, C7_overwrite_ttl_transition [] 0 "k" (by decide)⟩

/-- Claim C8: `delete` is idempotent and never errors on absence — on a
key with no physical binding it returns nothing, and for every store
and key a second `delete` right after a first one returns nothing. -/
theorem C8_delete_idempotent (s : StoreMap) (key : String)
    (h : StoreMap.findVal s key = none) :
    (KvStore.delete s key).2 = none ∧
    ∀ t : StoreMap, ∀ k : String,
      (KvStore.delete (KvStore.delete t k).1 k).2 = none := by
  constructor
  · unfold KvStore.delete
    rw [h]
    rfl
  · intro t k
    unfold KvStore.delete
    rw [show (StoreMap.removeVal t k, (StoreMap.findVal t k).map Value.data).1 =
      StoreMap.removeVal t k from rfl]
    rw [findVal_removeVal t k]
    rfl

/-- Witness for C8_delete_idempotent at the empty store and key "k". -/
theorem C8_delete_idempotent_witness :
    StoreMap.findVal [] "k" = none ∧
    ((KvStore.delete [] "k").2 = none ∧
      ∀ t : StoreMap, ∀ k : String,
        (KvStore.delete (KvStore.delete t k).1 k).2 = none) :=
  ⟨rfl, C8_delete_idempotent [] "k" rfl⟩

/-- Claim C9: `is_empty` and `len` count physical entries, expired ones
included — on a nonempty store whose every entry is expired, `is_empty`
is `false` and `len` is the physical entry count, while `get` returns
nothing for every key and `list` is empty. -/
theorem C9_size_counts_expired (s : StoreMap) (now : Nat)
    (hne : s ≠ []) (hall : ∀ p ∈ s, KvStore.is_expired now p.2 = true) :
    KvStore.is_empty s = false ∧ KvStore.len s = s.length ∧
    (∀ k, KvStore.get s now k = none) ∧ KvStore.list s now = [] := by
  refine ⟨?_, rfl, ?_, ?_⟩
  · unfold KvStore.is_empty
    cases s with
    | nil => exact absurd rfl hne
    | cons p rest => rfl
  · intro k
    unfold KvStore.get
    cases hf : StoreMap.findVal s k with
    | none => rfl
    | some v =>
        have hv := hall (k, v) (findVal_mem s k v hf)
        simp [hv]
  · unfold KvStore.list
    have hfil : (s.filter fun p => !KvStore.is_expired now p.2) = [] := by
      rw [List.filter_eq_nil_iff]
      intro p hp
      rw [hall p hp]
      intro hc
      exact Bool.noConfusion hc
    rw [hfil]
    rfl

/-- Witness for C9_size_counts_expired: a two-entry store, both entries
expired at time 5. -/
theorem C9_size_counts_expired_witness :
    ([("a", Value.mk "x" (some 1)), ("b", Value.mk "y" (some 2))] : StoreMap) ≠ [] ∧
    (∀ p ∈ ([("a", Value.mk "x" (some 1)), ("b", Value.mk "y" (some 2))] : StoreMap),
      KvStore.is_expired 5 p.2 = true) ∧
    (KvStore.is_empty [("a", Value.mk "x" (some 1)), ("b", Value.mk "y" (some 2))] = false ∧
      KvStore.len [("a", Value.mk "x" (some 1)), ("b", Value.mk "y" (some 2))] =
        ([("a", Value.mk "x" (some 1)), ("b", Value.mk "y" (some 2))] : StoreMap).length ∧
      (∀ k, KvStore.get [("a", Value.mk "x" (some 1)), ("b", Value.mk "y" (some 2))] 5 k = none) ∧
      KvStore.list [("a", Value.mk "x" (some 1)), ("b", Value.mk "y" (some 2))] 5 = []) :=
  ⟨by decide, by decide,
    C9_size_counts_expired
      [("a", Value.mk "x" (some 1)), ("b", Value.mk "y" (some 2))] 5
      (by decide) (by decide)⟩

/-- Claim C10: `ttl` never returns zero — whenever `get_ttl` returns
`some n`, in fact `1 ≤ n`, because an entry whose `expires_at` equals
the current time is already expired and yields nothing. -/
theorem C10_ttl_never_zero (s : StoreMap) (now : Nat) (key : String) (n : Nat)
    (h : KvStore.get_ttl s now key = some n) : 1 ≤ n := by
  unfold KvStore.get_ttl at h
  cases hf : StoreMap.findVal s key with
  | none => rw [hf] at h; exact Option.noConfusion h
  | some entry =>
      rw [hf] at h
      by_cases hexp : KvStore.is_expired now entry = true
      · simp [hexp] at h
      · cases hx : entry.expires_at with
        | none => simp [hexp, hx] at h
        | some e =>
            simp [hexp, hx] at h
            have hgt : now < e := by
              unfold KvStore.is_expired at hexp
              rw [hx] at hexp
              simpa using hexp
            omega

/-- Witness for C10_ttl_never_zero: an entry expiring at time 10, read
at time 0, yields `some 10` and `1 ≤ 10`. -/
theorem C10_ttl_never_zero_witness :
    KvStore.get_ttl [("k", Value.mk "v" (some 10))] 0 "k" = some 10 ∧ 1 ≤ 10 :=
  ⟨by decide, C10_ttl_never_zero [("k", Value.mk "v" (some 10))] 0 "k" 10 (by decide)⟩

end KvSpec
